import Mathlib

/-!
# Verification of the `graph` connection pool (cloudcube/database)

Shallow embedding of the connection-pool component found in the `graph`
package (file revision `part_002`, the complete one) together with the
`driver` SPI sentinels it uses.  Go's mutable heap of `*driverConn`
pointers is modelled as an association list from a numeric identity to the
wrapper's state; the pool (`DB`) carries that heap, the idle list
(`freeConn`, a list of identities), the dependency table and the bookkeeping
counters the claims talk about (number of `driver.Open` calls, number of
`ci.Close` calls per wrapper).  A Go `panic` is modelled by the `PRes`
outcome type.  Lock acquisition/release is not modelled: every operation is
the atomic effect of its locked critical sections, in source order.
-/

namespace Graph

/-- Errors of the pool and of the SPI.  `badConn` is `driver.ErrBadConn`,
`poolClosed` is the "graph:database is closed" error, `duplicateClose` is
"graph: duplicate driverConn close", and `driverErr c` stands for an
arbitrary backend error returned by `Driver.Open` or `Conn.Close`. -/
inductive GoErr where
  | poolClosed
  | badConn
  | duplicateClose
  | driverErr (code : Nat)
  deriving DecidableEq, Repr

/-- Outcome of an operation that can `panic` in Go.  A `panicked` outcome
aborts the calling goroutine; no state is observable past it. -/
inductive PRes (α : Type) where
  | ok : α → PRes α
  | panicked : PRes α
  deriving DecidableEq, Repr

/-- State of one `driverConn` wrapper (`part_002`, struct `driverConn`).
`onPut` is the number of pending on-release callbacks (their bodies are
opaque; `putConn` runs and clears them).  `ciCloses` counts how many times
the underlying backend connection's `Close` was invoked (`dc.ci.Close()`),
`ciPresent` is whether the `ci` field is still non-nil, and `ciCloseErr` is
the error that `ci.Close()` reports. -/
structure DCState where
  closed : Bool := false
  finalClosed : Bool := false
  inUse : Bool := false
  dbmuClosed : Bool := false
  onPut : Nat := 0
  openStmt : List Nat := []
  ciPresent : Bool := true
  ciCloses : Nat := 0
  ciCloseErr : Option GoErr := none
  deriving DecidableEq, Repr

/-- The dependency table `db.dep : map[finalCloser]depSet`: resource
identity mapped to the list (set) of its dependents' identities. -/
abbrev DepTbl := List (Nat × List Nat)

/-- State of one pool (`part_002`, struct `DB`).  `conns` is the heap of
wrappers, `freeConn` holds wrapper identities with the most recently
released one last, `maxIdle` is the configured idle maximum, `driverOpenOk`
says whether `db.driver.Open(db.dsn)` succeeds, and `driverOpens` counts
how many times it was called. -/
structure DB where
  closed : Bool := false
  freeConn : List Nat := []
  maxIdle : Int := 0
  dep : DepTbl := []
  conns : List (Nat × DCState) := []
  nextId : Nat := 0
  driverOpenOk : Bool := true
  driverOpens : Nat := 0
  deriving DecidableEq, Repr

/-- Dereference a wrapper pointer: look its identity up in the heap. -/
def lookupConn (db : DB) (i : Nat) : Option DCState :=
  db.conns.lookup i

/-- Mutate the wrapper `i` points to (a no-op on a dangling identity,
which is unreachable from the API). -/
def updateConn (db : DB) (i : Nat) (f : DCState → DCState) : DB :=
  { db with conns := db.conns.map fun p => if p.1 == i then (p.1, f p.2) else p }

/-- Source `addDepLocked` (`part_002`): insert `d` into `x`'s dependent set,
creating the entry when missing; re-adding an existing dependent is a
no-op (`xdep[dep] = true`). -/
def addDepLocked (tbl : DepTbl) (x d : Nat) : DepTbl :=
  match tbl.lookup x with
  | none => (x, [d]) :: tbl
  | some s =>
      (x, if s.contains d then s else d :: s) :: tbl.filter fun p => p.1 != x

/-- Source `removeDepLocked` (`part_002`): delete `d` from `x`'s dependent set when
the entry exists; when the set becomes empty, delete the entry and report
`true` (the returned closure invokes `x.finalClose()`), otherwise report
`false` (the returned closure returns nil). -/
def removeDepLocked (tbl : DepTbl) (x d : Nat) : DepTbl × Bool :=
  match tbl.lookup x with
  | none => (tbl, false)
  | some s =>
      let s2 := s.erase d
      if s2.isEmpty then (tbl.filter (fun p => p.1 != x), true)
      else ((x, s2) :: tbl.filter (fun p => p.1 != x), false)

/-- Source `driverConn.finalClose` (`part_002`): close every open statement, clear
the set, invoke `ci.Close()` (counted in `ciCloses`, returning
`ciCloseErr`), nil out `ci`, mark `finalClosed`. -/
def finalClose (db : DB) (i : Nat) : Option GoErr × DB :=
  match lookupConn db i with
  | none => (none, db)
  | some dc =>
      (dc.ciCloseErr,
       updateConn db i fun c =>
         { c with openStmt := [], ciCloses := c.ciCloses + 1,
                  ciPresent := false, finalClosed := true })

/-- Source `driverConn.Close` (`part_002`): the logical close.  Fails with the
duplicate-close error when already closed; otherwise marks `closed` and
`dbmuClosed`, removes the wrapper's self-dependency, and runs `finalClose`
exactly when that removal emptied the dependent set. -/
def driverConnClose (db : DB) (i : Nat) : Option GoErr × DB :=
  match lookupConn db i with
  | none => (none, db)
  | some dc =>
      if dc.closed then (some GoErr.duplicateClose, db)
      else
        let db1 := updateConn db i fun c => { c with closed := true, dbmuClosed := true }
        let rd := removeDepLocked db1.dep i i
        let db2 := { db1 with dep := rd.1 }
        if rd.2 then finalClose db2 i else (none, db2)

/-- Source `defaultMaxIdleConns` (`part_002`). -/
def defaultMaxIdleConns : Nat := 2

/-- Source `DB.maxIdleConnsLocked` (`part_002`): the effective idle maximum from
the configured `maxIdle`. -/
def maxIdleConnsLocked (db : DB) : Nat :=
  if db.maxIdle = 0 then defaultMaxIdleConns
  else if db.maxIdle < 0 then 0
  else db.maxIdle.toNat

/-- Source `DB.conn` (`part_002`): the acquire path.  Rejects a closed pool; pops
the last idle wrapper and marks it in-use when one exists; otherwise calls
`db.driver.Open` (counted in `driverOpens`) and on success registers the
new wrapper as its own dependent and marks it in-use. -/
def conn (db : DB) : Except GoErr Nat × DB :=
  if db.closed then (Except.error GoErr.poolClosed, db)
  else
    match db.freeConn.getLast? with
    | some i =>
        let db1 := { db with freeConn := db.freeConn.dropLast }
        (Except.ok i, updateConn db1 i fun c => { c with inUse := true })
    | none =>
        let db1 := { db with driverOpens := db.driverOpens + 1 }
        if db.driverOpenOk then
          let i := db.nextId
          (Except.ok i,
           { db1 with conns := (i, ({ inUse := true } : DCState)) :: db1.conns,
                      nextId := i + 1,
                      dep := addDepLocked db1.dep i i })
        else (Except.error (GoErr.driverErr 0), db1)

/-- Source `DB.putConn` (`part_002`): the release path.  Panics when the wrapper's
`inUse` flag is set (the source reads `if dc.inUse { panic(...) }`); clears
`inUse` and the on-release callbacks; returns without touching the idle
list on `driver.ErrBadConn`; appends to the idle list when the pool is open
and it holds fewer than the effective maximum; otherwise calls
`dc.Close()`, discarding its error. -/
def putConn (db : DB) (i : Nat) (err : Option GoErr) : PRes DB :=
  match lookupConn db i with
  | none => PRes.panicked
  | some dc =>
      if dc.inUse then PRes.panicked
      else
        let db1 := updateConn db i fun c => { c with inUse := false, onPut := 0 }
        if err = some GoErr.badConn then PRes.ok db1
        else if !db1.closed && db1.freeConn.length < maxIdleConnsLocked db1 then
          PRes.ok { db1 with freeConn := db1.freeConn ++ [i] }
        else PRes.ok (driverConnClose db1 i).2

/-- Source `DB.Ping` (`part_002`): acquire, propagate the acquire error, otherwise
release immediately and return nil (a release panic aborts `Ping`). -/
def Ping (db : DB) : PRes (Option GoErr × DB) :=
  match conn db with
  | (Except.error e, db1) => PRes.ok (some e, db1)
  | (Except.ok i, db1) =>
      match putConn db1 i none with
      | PRes.panicked => PRes.panicked
      | PRes.ok db2 => PRes.ok (none, db2)

/-- Modelled from the spec: `Pool.Close()` is absent from the sources (only
the `closed` flag it sets and the `dbmuClosed` field kept "for connIfFree"
appear), so it is taken from the spec's words: it "must physically close
every idle wrapper and reject further acquires".  Every idle wrapper is
closed through the wrapper close path, the idle list is emptied, and the
`closed` flag is set. -/
def closePool (db : DB) : DB :=
  let db1 := db.freeConn.foldl (fun d i => (driverConnClose d i).2) db
  { db1 with freeConn := [], closed := true }

/-- The idle list holds no wrapper whose `inUse` flag is set (the claimed
pool invariant, as a decidable check on a state). -/
def idleAllNotInUse (db : DB) : Bool :=
  db.freeConn.all fun i => ((lookupConn db i).map DCState.inUse).getD true == false

/-- A wrapper currently handed out by `conn` (its `inUse` flag is set). -/
def dcInUse : DCState := { inUse := true }

/-- A wrapper whose `inUse` flag is clear. -/
def dcFree : DCState := { inUse := false }

deriving instance DecidableEq for Except

/-! ## Helper lemmas about the heap encoding -/

theorem lookup_update_list {β : Type} (l : List (Nat × β)) (i : Nat) (f : β → β) :
    (l.map fun p => if p.1 == i then (p.1, f p.2) else p).lookup i = (l.lookup i).map f := by
  induction l with
  | nil => rfl
  | cons hd tl ih =>
      obtain ⟨k, v⟩ := hd
      by_cases h : k = i
      · subst h
        simp only [List.map_cons]
        rw [if_pos (show (((k, v) : Nat × β).1 == k) = true by simp)]
        simp [List.lookup]
      · simp only [List.map_cons]
        rw [if_neg (by simp [h])]
        simp only [List.lookup]
        rw [show (i == k) = false by simp [Ne.symm h]]
        exact ih

theorem lookupConn_updateConn (db : DB) (i : Nat) (f : DCState → DCState) :
    lookupConn (updateConn db i f) i = (lookupConn db i).map f :=
  lookup_update_list db.conns i f

theorem lookup_filter_ne {β : Type} (l : List (Nat × β)) (x : Nat) :
    (l.filter fun p => p.1 != x).lookup x = none := by
  induction l with
  | nil => rfl
  | cons hd tl ih =>
      by_cases h : hd.1 = x
      · simpa [List.filter, h] using ih
      · simp only [List.filter]
        rw [show (hd.1 != x) = true by simp [h]]
        simp only [List.lookup]
        rw [show (x == hd.1) = false by simp [Ne.symm h]]
        exact ih

/-- The result of `finalClose` on the wrapper `dc` that `i` points to. -/
def finallyClosed (dc : DCState) : DCState :=
  { dc with
     openStmt := [], ciCloses := dc.ciCloses + 1,
     ciPresent := false, finalClosed := true }

/-- The field updates the logical close applies before removing the
self-dependency. -/
def markClosed (dc : DCState) : DCState :=
  { dc with closed := true, dbmuClosed := true }

theorem lookupConn_finalClose (db : DB) (i : Nat) (dc : DCState)
    (h : lookupConn db i = some dc) :
    lookupConn (finalClose db i).2 i = some (finallyClosed dc) := by
  simp only [finalClose, h]
  show lookupConn (updateConn db i _) i = _
  rw [lookupConn_updateConn, h]
  rfl

theorem lookupConn_after_close (db : DB) (i : Nat) (dc : DCState)
    (h : lookupConn db i = some dc) (hc : dc.closed = false) :
    ∃ dc', lookupConn (driverConnClose db i).2 i = some dc' ∧ dc'.closed = true := by
  simp only [driverConnClose, h, hc, Bool.false_eq_true, if_false]
  have hu : lookupConn
      (updateConn db i fun c => { c with closed := true, dbmuClosed := true }) i =
      some (markClosed dc) := by
    rw [lookupConn_updateConn, h]
    rfl
  split
  · exact ⟨_, lookupConn_finalClose _ i (markClosed dc) hu, rfl⟩
  · exact ⟨_, hu, rfl⟩

theorem driverConnClose_already_closed (db : DB) (i : Nat) (dc : DCState)
    (h : lookupConn db i = some dc) (hc : dc.closed = true) :
    driverConnClose db i = (some GoErr.duplicateClose, db) := by
  simp only [driverConnClose, h, hc, if_true]

theorem driverConnClose_freeConn (db : DB) (i : Nat) :
    (driverConnClose db i).2.freeConn = db.freeConn := by
  simp only [driverConnClose]
  split
  · rfl
  · split
    · rfl
    · split
      · simp only [finalClose]
        split
        · rfl
        · rfl
      · rfl

theorem removeDep_self_singleton (tbl : DepTbl) (i : Nat) (h : tbl.lookup i = some [i]) :
    removeDepLocked tbl i i = (tbl.filter fun p => p.1 != i, true) := by
  unfold removeDepLocked
  rw [h]
  simp

theorem driverConnClose_self_dep (db : DB) (i : Nat) (dc : DCState)
    (h : lookupConn db i = some dc) (hc : dc.closed = false)
    (hdep : db.dep.lookup i = some [i]) :
    (driverConnClose db i).2.freeConn = db.freeConn ∧
    lookupConn (driverConnClose db i).2 i = some (finallyClosed (markClosed dc)) := by
  refine ⟨driverConnClose_freeConn db i, ?_⟩
  simp only [driverConnClose, h, hc, Bool.false_eq_true, if_false]
  have hdep1 : (updateConn db i fun c => { c with closed := true, dbmuClosed := true }).dep.lookup i =
      some [i] := hdep
  rw [removeDep_self_singleton _ _ hdep1]
  have hu : lookupConn
      (updateConn db i fun c => { c with closed := true, dbmuClosed := true }) i =
      some (markClosed dc) := by
    rw [lookupConn_updateConn, h]
    rfl
  exact lookupConn_finalClose _ i (markClosed dc) hu

/-! ## Claim C1 -/

/-- C1: the claim states that `putConn` panics if and only if the wrapper's
in-use flag is already false, and that a release of an in-use wrapper never
hits the fatal branch.  The source has the guard inverted
(`if dc.inUse { panic(...) }`): releasing a legitimately in-use wrapper
panics, while releasing a wrapper whose in-use flag is already false — the
double-release the panic message "connection returned that was never out"
describes — sails through.  This theorem evaluates the code at both
inputs. -/
theorem putConn_fatal_guard_inverted :
    putConn { conns := [(0, dcInUse)] } 0 none = PRes.panicked ∧
    putConn { conns := [(0, dcFree)] } 0 none ≠ PRes.panicked := by decide

/-! ## Claim C2 -/

/-- A pool holding one released wrapper, used to exercise the
bad-connection release path. -/
def dbBad : DB := { conns := [(0, dcFree)] }

/-- The state `putConn dbBad 0 ErrBadConn` leaves behind. -/
def dbBadRes : DB := updateConn dbBad 0 fun c => { c with inUse := false, onPut := 0 }

/-- C2 counterexample: releasing wrapper 0 of `dbBad` with the
bad-connection sentinel completes, leaves the idle list without the wrapper
(that half of the claim holds), but the backend connection's `Close` is
never invoked — `ciCloses` stays 0 and the wrapper is not `finalClosed` —
refuting the claim's teardown conjunct. -/
theorem putConn_badConn_no_teardown :
    putConn dbBad 0 (some GoErr.badConn) = PRes.ok dbBadRes ∧
    dbBadRes.freeConn = [] ∧
    (lookupConn dbBadRes 0).map DCState.ciCloses = some 0 ∧
    (lookupConn dbBadRes 0).map DCState.finalClosed = some false ∧
    ¬ (lookupConn dbBadRes 0).map DCState.ciCloses = some 1 := by decide

/-- C2 (amended): a completing release with the bad-connection sentinel
never appends the wrapper to the idle list (the idle list is left exactly
as it was), but the wrapper is not physically torn down either: the code
merely drops it, so its backend `Close` count and `finalClosed` flag are
unchanged. -/
theorem putConn_badConn_drops (db : DB) (i : Nat) (dc : DCState)
    (h : lookupConn db i = some dc) (hu : dc.inUse = false) :
    putConn db i (some GoErr.badConn) =
      PRes.ok (updateConn db i fun c => { c with inUse := false, onPut := 0 }) ∧
    (updateConn db i fun c => { c with inUse := false, onPut := 0 }).freeConn =
      db.freeConn ∧
    (lookupConn (updateConn db i fun c => { c with inUse := false, onPut := 0 }) i).map
        DCState.ciCloses = some dc.ciCloses ∧
    (lookupConn (updateConn db i fun c => { c with inUse := false, onPut := 0 }) i).map
        DCState.finalClosed = some dc.finalClosed := by
  refine ⟨?_, rfl, ?_, ?_⟩
  · unfold putConn
    rw [h]
    simp [hu]
  · rw [lookupConn_updateConn, h]
    rfl
  · rw [lookupConn_updateConn, h]
    rfl

/-- C2 witness: the amended theorem applied to the concrete pool
`dbBad`. -/
theorem putConn_badConn_drops_witness :
    putConn dbBad 0 (some GoErr.badConn) = PRes.ok dbBadRes :=
  (putConn_badConn_drops dbBad 0 dcFree (by decide) (by decide)).1

/-! ## Claim C6 -/

/-- C6: `removeDepLocked` reports a finalizing action (`true`, for which
the caller invokes the resource's `finalClose`) exactly when deleting the
given dependent leaves the resource's dependent set empty; in that case the
resource's entry is deleted from the table, and otherwise the entry keeps
the shrunken set and a no-op (`false`) is reported. -/
theorem removeDep_finalizes_iff (tbl : DepTbl) (x d : Nat) (s : List Nat)
    (h : tbl.lookup x = some s) :
    ((removeDepLocked tbl x d).2 = true ↔ s.erase d = []) ∧
    (s.erase d = [] → (removeDepLocked tbl x d).1.lookup x = none) ∧
    (s.erase d ≠ [] →
      (removeDepLocked tbl x d).1.lookup x = some (s.erase d) ∧
      (removeDepLocked tbl x d).2 = false) := by
  unfold removeDepLocked
  rw [h]
  by_cases he : s.erase d = []
  · simp [he, lookup_filter_ne]
  · simp only [he, List.isEmpty_iff, if_neg he]
    refine ⟨by simp [he], by simp [he], fun _ => ⟨?_, rfl⟩⟩
    simp [List.lookup]

/-- C6 witness: with table `[(1, [2])]`, removing dependent 2 from
resource 1 empties the set, so the finalizing action is reported. -/
theorem removeDep_finalizes_iff_witness :
    (removeDepLocked [(1, [2])] 1 2).2 = true :=
  ((removeDep_finalizes_iff [(1, [2])] 1 2 [2] (by decide)).1).mpr (by decide)

/-! ## Claim C10 -/

/-- C10: for a resource with no entry in the dependency table,
`removeDepLocked` leaves the table untouched and reports `false`, i.e. the
returned action is the nil-returning no-op and the resource's `finalClose`
is never triggered. -/
theorem removeDep_untracked_noop (tbl : DepTbl) (x d : Nat)
    (h : tbl.lookup x = none) :
    removeDepLocked tbl x d = (tbl, false) := by
  unfold removeDepLocked
  rw [h]

/-- C10 witness: resource 3 is untracked in `[(7, [1])]`. -/
theorem removeDep_untracked_noop_witness :
    removeDepLocked [(7, [1])] 3 9 = ([(7, [1])], false) :=
  removeDep_untracked_noop [(7, [1])] 3 9 (by decide)

/-! ## Claim C3 -/

/-- An open pool with no idle wrapper and a driver whose `Open` succeeds. -/
def dbFresh : DB := {}

/-- An open pool with no idle wrapper and a driver whose `Open` fails. -/
def dbNoOpen : DB := { driverOpenOk := false }

/-- C3: the claim states that `Ping` acquires, releases immediately, and
surfaces failures.  Acquire-error propagation does hold (third conjunct:
the driver-open error is returned verbatim), but on every successful
acquire the immediate release `putConn(dc, nil)` hits the inverted in-use
guard and panics — `Ping` aborts instead of releasing the wrapper and
returning nil.  This theorem evaluates the code at the failing input: the
acquire on `dbFresh` succeeds (wrapper 0 is handed out) yet `Ping`
panics. -/
theorem ping_panics_after_successful_acquire :
    (conn dbFresh).1 = Except.ok 0 ∧
    Ping dbFresh = PRes.panicked ∧
    Ping dbNoOpen =
      PRes.ok (some (GoErr.driverErr 0), { dbNoOpen with driverOpens := 1 }) := by
  decide

/-! ## Claim C4 -/

/-- C4: on an open pool whose idle list is non-empty, `conn` pops the last
(most recently appended, hence most recently released) wrapper, removes it
from the idle list, and marks it in-use.  The pool being open is implicit
in the claim: the sources never set the `closed` flag, and the spec's
`Close` empties the idle list, so a closed pool with an idle wrapper is
unreachable. -/
theorem conn_pops_lifo (db : DB) (l : List Nat) (b : Nat) (dc : DCState)
    (hopen : db.closed = false) (hfree : db.freeConn = l ++ [b])
    (hdc : lookupConn db b = some dc) :
    (conn db).1 = Except.ok b ∧
    (conn db).2.freeConn = l ∧
    lookupConn (conn db).2 b = some { dc with inUse := true } := by
  unfold conn
  rw [hopen, hfree]
  simp only [Bool.false_eq_true, if_false, List.getLast?_concat, List.dropLast_concat]
  refine ⟨by trivial, by trivial, ?_⟩
  rw [lookupConn_updateConn]
  simp only [lookupConn] at hdc ⊢
  rw [hdc]
  rfl

/-- C4 witness: idle wrappers `[1, 2]` with 2 released most recently; the
next acquire returns 2, leaves `[1]` idle, and marks 2 in-use. -/
theorem conn_pops_lifo_witness :
    (conn { freeConn := [1, 2], conns := [(1, dcFree), (2, dcFree)] }).1 =
        Except.ok 2 ∧
    (conn { freeConn := [1, 2], conns := [(1, dcFree), (2, dcFree)] }).2.freeConn =
        [1] ∧
    lookupConn (conn { freeConn := [1, 2], conns := [(1, dcFree), (2, dcFree)] }).2 2 =
        some { dcFree with inUse := true } :=
  conn_pops_lifo { freeConn := [1, 2], conns := [(1, dcFree), (2, dcFree)] }
    [1] 2 dcFree (by decide) (by decide) (by decide)

/-! ## Claim C9 -/

/-- A pool whose idle list holds wrapper 5 with its in-use flag clear: the
state a double-release acceptance produces, satisfying the claimed
invariant (no idle wrapper is in-use). -/
def dbNine : DB := { freeConn := [5], conns := [(5, dcFree)] }

/-- The state `putConn dbNine 5 nil` leaves behind: wrapper 5 appended a
second time to the idle list. -/
def dbNine1 : DB :=
  { updateConn dbNine 5 (fun c => { c with inUse := false, onPut := 0 }) with
    freeConn := [5, 5] }

/-! ## Claim C5 -/

theorem updateConn_closed (db : DB) (i : Nat) (f : DCState → DCState) :
    (updateConn db i f).closed = db.closed := rfl

theorem updateConn_freeConn (db : DB) (i : Nat) (f : DCState → DCState) :
    (updateConn db i f).freeConn = db.freeConn := rfl

theorem maxIdleConnsLocked_updateConn (db : DB) (i : Nat) (f : DCState → DCState) :
    maxIdleConnsLocked (updateConn db i f) = maxIdleConnsLocked db := rfl

/-- C5: for an open pool, a completing (`inUse` clear at entry, per the
release guard) non-bad release appends the wrapper to the idle list when
the list holds fewer wrappers than the effective maximum, and otherwise
closes it through the wrapper close path — physically (backend `Close`
invoked once, `finalClosed` set) when the wrapper was not yet logically
closed and had only its self-dependency.  The effective maximum is the
configured value when positive, 2 when it is 0, and 0 when negative, and a
release never pushes the idle-list length above the effective maximum. -/
theorem putConn_idle_policy (db : DB) (i : Nat) (dc : DCState) (err : Option GoErr)
    (hopen : db.closed = false)
    (h : lookupConn db i = some dc) (hu : dc.inUse = false)
    (hb : err ≠ some GoErr.badConn) :
    (db.maxIdle = 0 → maxIdleConnsLocked db = 2) ∧
    (db.maxIdle < 0 → maxIdleConnsLocked db = 0) ∧
    (0 < db.maxIdle → (maxIdleConnsLocked db : Int) = db.maxIdle) ∧
    (db.freeConn.length < maxIdleConnsLocked db →
      ∃ db', putConn db i err = PRes.ok db' ∧ db'.freeConn = db.freeConn ++ [i]) ∧
    (maxIdleConnsLocked db ≤ db.freeConn.length →
      ∃ db', putConn db i err = PRes.ok db' ∧ db'.freeConn = db.freeConn ∧
        (dc.closed = false → db.dep.lookup i = some [i] →
          (lookupConn db' i).map DCState.ciCloses = some (dc.ciCloses + 1) ∧
          (lookupConn db' i).map DCState.finalClosed = some true)) ∧
    (db.freeConn.length ≤ maxIdleConnsLocked db →
      ∀ db', putConn db i err = PRes.ok db' →
        db'.freeConn.length ≤ maxIdleConnsLocked db) := by
  have happend : db.freeConn.length < maxIdleConnsLocked db →
      putConn db i err =
        PRes.ok { updateConn db i (fun c => { c with inUse := false, onPut := 0 }) with
                   freeConn := db.freeConn ++ [i] } := by
    intro hlt
    simp only [putConn, h]
    rw [if_neg (by simp [hu])]
    rw [if_neg hb]
    rw [if_pos (by
      simp [updateConn_closed, updateConn_freeConn, maxIdleConnsLocked_updateConn, hopen, hlt])]
    rfl
  have hclose : maxIdleConnsLocked db ≤ db.freeConn.length →
      putConn db i err =
        PRes.ok
          (driverConnClose (updateConn db i fun c => { c with inUse := false, onPut := 0 }) i).2 := by
    intro hge
    simp only [putConn, h]
    rw [if_neg (by simp [hu])]
    rw [if_neg hb]
    rw [if_neg (by
      simp [updateConn_closed, updateConn_freeConn, maxIdleConnsLocked_updateConn, hopen]
      omega)]
  refine ⟨?_, ?_, ?_, ?_, ?_, ?_⟩
  · intro h0
    simp [maxIdleConnsLocked, h0, defaultMaxIdleConns]
  · intro hneg
    unfold maxIdleConnsLocked
    rw [if_neg (by omega), if_pos hneg]
  · intro hpos
    unfold maxIdleConnsLocked
    rw [if_neg (by omega), if_neg (by omega)]
    exact Int.toNat_of_nonneg (le_of_lt hpos)
  · intro hlt
    exact ⟨_, happend hlt, rfl⟩
  · intro hge
    refine ⟨_, hclose hge, driverConnClose_freeConn _ i, ?_⟩
    intro hdcc hdep
    have h1 : lookupConn (updateConn db i fun c => { c with inUse := false, onPut := 0 }) i
        = some { dc with inUse := false, onPut := 0 } := by
      rw [lookupConn_updateConn, h]
      rfl
    have h2 := (driverConnClose_self_dep _ i ({ dc with inUse := false, onPut := 0 }) h1
      (show ({ dc with inUse := false, onPut := 0 } : DCState).closed = false from hdcc)
      hdep).2
    rw [h2]
    exact ⟨rfl, rfl⟩
  · intro hle db' hput
    by_cases hlt : db.freeConn.length < maxIdleConnsLocked db
    · rw [happend hlt] at hput
      injection hput with h6
      subst h6
      show (db.freeConn ++ [i]).length ≤ maxIdleConnsLocked db
      rw [List.length_append]
      simp only [List.length_singleton]
      omega
    · rw [hclose (by omega)] at hput
      injection hput with h6
      subst h6
      rw [driverConnClose_freeConn]
      exact hle

/-- C5 witness: releasing wrapper 0 into an empty idle list of a
default-configured pool appends it. -/
theorem putConn_idle_policy_witness :
    ∃ db', putConn ({ conns := [(0, dcFree)] } : DB) 0 none = PRes.ok db' ∧
      db'.freeConn = ({ conns := [(0, dcFree)] } : DB).freeConn ++ [0] :=
  (putConn_idle_policy { conns := [(0, dcFree)] } 0 dcFree none rfl (by decide) (by decide)
    (by decide)).2.2.2.1 (by decide)

/-! ## Claim C7 -/

/-- C7: after a first logical close of a not-yet-closed wrapper, a second
`driverConn.Close` on the same wrapper returns the duplicate-close error,
leaves the whole pool state untouched, and in particular does not invoke
the backend connection's `Close` again (the wrapper's `ciCloses` count is
unchanged by the second call). -/
theorem driverConnClose_twice (db : DB) (i : Nat) (dc : DCState)
    (h : lookupConn db i = some dc) (hc : dc.closed = false) :
    driverConnClose (driverConnClose db i).2 i =
      (some GoErr.duplicateClose, (driverConnClose db i).2) ∧
    (lookupConn (driverConnClose (driverConnClose db i).2 i).2 i).map DCState.ciCloses =
      (lookupConn (driverConnClose db i).2 i).map DCState.ciCloses := by
  obtain ⟨dc', h', hcl⟩ := lookupConn_after_close db i dc h hc
  have h2 := driverConnClose_already_closed _ i dc' h' hcl
  exact ⟨h2, by rw [h2]⟩

/-- C7 witness: wrapper 3 (self-dependency only) closed twice; the second
close reports the duplicate-close error and changes nothing. -/
theorem driverConnClose_twice_witness :
    driverConnClose (driverConnClose { conns := [(3, dcInUse)], dep := [(3, [3])] } 3).2 3 =
      (some GoErr.duplicateClose,
       (driverConnClose { conns := [(3, dcInUse)], dep := [(3, [3])] } 3).2) :=
  (driverConnClose_twice { conns := [(3, dcInUse)], dep := [(3, [3])] } 3 dcInUse
    (by decide) (by decide)).1

/-! ## Claim C8 -/

/-- C8: the pool's `Close` (modelled from the spec, absent from the
sources) sets the closed flag and empties the idle list after physically
closing each idle wrapper; on any closed pool, `conn` fails with the
pool-closed error and returns the state unchanged — so no driver `Open` is
called and the idle list is not mutated — and `Ping` surfaces the same
error with the state equally untouched. -/
theorem closed_pool_rejects (db : DB) :
    (closePool db).closed = true ∧
    (closePool db).freeConn = [] ∧
    ∀ d : DB, d.closed = true →
      conn d = (Except.error GoErr.poolClosed, d) ∧
      Ping d = PRes.ok (some GoErr.poolClosed, d) ∧
      (conn d).2.driverOpens = d.driverOpens ∧
      (conn d).2.freeConn = d.freeConn := by
  refine ⟨rfl, rfl, fun d hd => ?_⟩
  have hc : conn d = (Except.error GoErr.poolClosed, d) := by
    unfold conn
    rw [if_pos hd]
  refine ⟨hc, ?_, by rw [hc], by rw [hc]⟩
  unfold Ping
  rw [hc]

/-- C8 witness: a pool holding idle wrapper 4 is closed; `Ping` then
returns the pool-closed error without touching the state. -/
theorem closed_pool_rejects_witness :
    Ping (closePool { freeConn := [4], conns := [(4, dcFree)], dep := [(4, [4])] }) =
      PRes.ok (some GoErr.poolClosed,
        closePool { freeConn := [4], conns := [(4, dcFree)], dep := [(4, [4])] }) :=
  ((closed_pool_rejects { freeConn := [4], conns := [(4, dcFree)], dep := [(4, [4])] }).2.2
    (closePool { freeConn := [4], conns := [(4, dcFree)], dep := [(4, [4])] })
    (by decide)).2.1

/-- C9: the claim states that acquire and release preserve the invariant
"the idle list never contains a wrapper whose in-use flag is true".  The
code's ordering is as described (remove-then-mark, clear-then-append), but
the inverted release guard accepts re-releasing an already-idle wrapper, so
from `dbNine` (which satisfies the invariant) the release `putConn 5`
completes and duplicates wrapper 5 on the idle list, and the very next
acquire pops one copy, marks 5 in-use, and leaves the other copy idle: the
idle list `[5]` now contains a wrapper whose in-use flag is true, violating
the invariant. -/
theorem idle_contains_inUse_after_release_acquire :
    idleAllNotInUse dbNine = true ∧
    putConn dbNine 5 none = PRes.ok dbNine1 ∧
    idleAllNotInUse dbNine1 = true ∧
    dbNine1.freeConn = [5, 5] ∧
    (conn dbNine1).1 = Except.ok 5 ∧
    (conn dbNine1).2.freeConn = [5] ∧
    lookupConn (conn dbNine1).2 5 = some { dcFree with inUse := true } ∧
    idleAllNotInUse (conn dbNine1).2 = false := by
  decide

end Graph
